import Mathlib

/-!
# Verification of the NasrdaNavi routing core

A shallow embedding of the geospatial routing engine of the NasrdaNavi
repository: the graph data model built by `backend/data/graph_builder.py`,
the geometric helpers of `backend/utils/geo_utils.py`, the turn-by-turn
narrator of `backend/services/navigation_service.py` and the route
calculation of `backend/services/routing_service.py`.

Conventions of the embedding:
* Coordinates are pairs `(lon, lat)` of rationals; the Python code works
  with floats, and every claim settled here is about branch structure,
  bookkeeping and exact comparisons, not float rounding.
* The haversine metric (`haversine_distance`, transcendental over floats)
  and the shortest-path oracle (`networkx.shortest_path`) are parameters
  of the definitions that call them; every theorem quantifies over them.
* The bearing function of `geo_utils.py` is embedded over the reals with
  `Complex.arg` standing for `math.atan2`, since its claims are about the
  exact formula and its range.
* Exceptions are embedded with `Except`: `ValueError` raised by the
  narrator and `RouteNotFoundError` raised by the router are distinct
  constructors, because the router catches only the latter.
-/

set_option autoImplicit false

namespace NasrdaNavi

/-- A point, as a `(lon, lat)` pair. -/
abbrev Point : Type := ℚ × ℚ

/-- The attribute dict stored on every edge by `graph_builder.py`:
`weight`, `road_name` and `path_type` are always set together. -/
structure EdgeData where
  weight : ℚ
  road_name : String
  path_type : String
  deriving DecidableEq, Repr

/-- An undirected `networkx.Graph` restricted to what the code uses: a
list of edge entries, at most one entry per unordered vertex pair
(maintained by `addEdge`). An entry keeps the orientation it was first
inserted with; lookups are symmetric. -/
structure Graph where
  edges : List (Point × Point × EdgeData)
  deriving DecidableEq, Repr

/-- The empty graph, `nx.Graph()`. -/
def emptyGraph : Graph := ⟨[]⟩

/-- Does an entry join the unordered pair `{u, v}`? -/
def entryMatch (u v : Point) (e : Point × Point × EdgeData) : Bool :=
  decide ((e.1 = u ∧ e.2.1 = v) ∨ (e.1 = v ∧ e.2.1 = u))

/-- `G.has_edge(u, v)`. -/
def hasEdge (g : Graph) (u v : Point) : Bool :=
  g.edges.any (entryMatch u v)

/-- `G.get_edge_data(u, v)`: the attribute dict of the edge between `u`
and `v`, or `None` when there is no such edge. -/
def getEdgeData (g : Graph) (u v : Point) : Option EdgeData :=
  (g.edges.find? (entryMatch u v)).map (fun e => e.2.2)

/-- Replace the data of the first entry joining `{u, v}`. -/
def replaceFirst : List (Point × Point × EdgeData) → Point → Point → EdgeData →
    List (Point × Point × EdgeData)
  | [], _, _, _ => []
  | e :: t, u, v, d =>
    if entryMatch u v e then (e.1, e.2.1, d) :: t else e :: replaceFirst t u v d

/-- `G.add_edge(u, v, weight=..., road_name=..., path_type=...)`. Per the
`networkx` contract, adding an edge that already exists updates its
attribute dict (the three attributes are always all supplied, so the
update is a full replacement); otherwise the edge is appended. -/
def addEdge (g : Graph) (u v : Point) (d : EdgeData) : Graph :=
  if hasEdge g u v then ⟨replaceFirst g.edges u v d⟩ else ⟨g.edges ++ [(u, v, d)]⟩

/-! ## Geometric helpers (`backend/utils/geo_utils.py`) -/

/-- `turn_direction(angle_diff)` of `geo_utils.py`, verbatim branch
structure: `abs < 20` is straight, `> 20` is left, everything else
(the `else` arm) is right. -/
def turn_direction (angle_diff : ℚ) : String :=
  if |angle_diff| < 20 then "Continue straight"
  else if angle_diff > 20 then "Turn left"
  else "Turn right"

/-- The bearing-difference normalization of `navigation_service.py`,
`(next_bearing - prev_bearing + 180) % 360 - 180`, with the Python float
modulo `a % n = a - n * floor(a / n)` (sign of the divisor). -/
def norm_diff (x : ℚ) : ℚ :=
  (x + 180) - 360 * (⌊(x + 180) / 360⌋ : ℤ) - 180

/-- Python `int(...)` on a rational value: truncation toward zero. -/
def pyint (x : ℚ) : ℤ :=
  if 0 ≤ x then ⌊x⌋ else ⌈x⌉

/-! ## The spatial index (`scipy.spatial.cKDTree`)

`cKDTree(points).query(q)` returns a nearest point of `points` under the
Euclidean metric in degree space; `query_ball_point(q, r)` returns the
indices of all points within Euclidean distance `r` of `q`. Both are
embedded with the squared metric, which orders distances identically. -/

/-- Squared Euclidean distance in degree space, the metric of the
`cKDTree` spatial index. -/
def sqDist (p q : Point) : ℚ :=
  (p.1 - q.1) ^ 2 + (p.2 - q.2) ^ 2

/-- `cKDTree(pts).query(q)`: a nearest member of `pts`, or `none` for an
empty point set (where scipy raises). -/
def treeQuery (pts : List Point) (q : Point) : Option Point :=
  match pts with
  | [] => none
  | p :: rest =>
    some (rest.foldl (fun best x => if sqDist q x < sqDist q best then x else best) p)

/-- `cKDTree(targets).query_ball_point(c, r)`: indices of the targets
within radius `r` of `c` (compared on squares). -/
def ballIndices (targets : List Point) (c : Point) (r : ℚ) : List ℕ :=
  (List.range targets.length).filter
    (fun j => sqDist c (targets.getD j (0, 0)) ≤ r ^ 2)

/-! ## Bearing (`geo_utils.calculate_bearing`)

Embedded over the reals. `math.atan2(y, x)` is the argument of the
complex number `x + y*I`, with range `(-pi, pi]` and `atan2 0 0 = 0`. -/

/-- `math.atan2 y x`. -/
noncomputable def atan2 (y x : ℝ) : ℝ :=
  Complex.arg ⟨x, y⟩

/-- `calculate_bearing(p1, p2)` of `geo_utils.py`:
`math.degrees(math.atan2(lat2 - lat1, lon2 - lon1))`. -/
noncomputable def calculate_bearing (p1 p2 : ℝ × ℝ) : ℝ :=
  (180 / Real.pi) * atan2 (p2.2 - p1.2) (p2.1 - p1.1)

/-! ## Narrator (`backend/services/navigation_service.py`)

`generate_turn_instructions` walks the path with a running current road
name, per-segment distance and total distance, emitting an instruction at
every classified turn and one arrival instruction at the end. The bearing
function it calls is a parameter (rational-valued stand-in for
`calculate_bearing`); the claims settled through this embedding do not
depend on bearing values. A missing edge raises `ValueError`, embedded as
`Except.error`. -/

/-- One emitted instruction: text and the vertex it is anchored at. -/
structure Instruction where
  text : String
  location : Point
  deriving DecidableEq, Repr

/-- Loop state of `generate_turn_instructions`. -/
structure GtiState where
  instructions : List Instruction
  total : ℚ
  seg : ℚ
  current_road : String
  deriving DecidableEq, Repr

/-- Default point used only to give list indexing a total type; every
access is guarded by the loop bounds. -/
def pt0 : Point := (0, 0)

/-- The `ValueError` message for a path edge absent from the graph. -/
def missingEdgeMsg : String :=
  "Invalid path: edge does not exist in graph"

/-- Body of the narrator loop for index `i` (one iteration of
`for i in range(len(path) - 1)`). -/
def gtiStep (g : Graph) (bearing : Point → Point → ℚ) (path : List Point)
    (st : GtiState) (i : ℕ) : Except String GtiState :=
  match getEdgeData g (path.getD i pt0) (path.getD (i + 1) pt0) with
  | none => .error missingEdgeMsg
  | some ed =>
    let seg := st.seg + ed.weight
    let total := st.total + ed.weight
    if i < path.length - 2 then
      match getEdgeData g (path.getD (i + 1) pt0) (path.getD (i + 2) pt0) with
      | none => .ok ⟨st.instructions, total, seg, st.current_road⟩
      | some nextEd =>
        let prevB := bearing (path.getD i pt0) (path.getD (i + 1) pt0)
        let nextB := bearing (path.getD (i + 1) pt0) (path.getD (i + 2) pt0)
        let diff := norm_diff (nextB - prevB)
        let turn := turn_direction diff
        let next_road := nextEd.road_name
        if turn ≠ "Continue straight" then
          let cr := st.current_road
          let sd := toString (pyint seg)
          let tl := turn.toLower
          .ok ⟨st.instructions ++
                [⟨"Continue on " ++ cr ++ " for " ++ sd ++ " meters, then " ++
                   tl ++ " onto " ++ next_road ++ ".", path.getD (i + 1) pt0⟩],
              total, 0, next_road⟩
        else if next_road ≠ st.current_road then
          .ok ⟨st.instructions, total, 0, next_road⟩
        else
          .ok ⟨st.instructions, total, seg, st.current_road⟩
    else
      .ok ⟨st.instructions, total, seg, st.current_road⟩

/-- The arrival instruction appended after the loop. -/
def arrivalInstruction (st : GtiState) (path : List Point) : Instruction :=
  ⟨"Continue on " ++ st.current_road ++ " for " ++ toString (pyint st.seg) ++
     " meters and arrive at your destination.",
   path.getD (path.length - 1) pt0⟩

/-- `NavigationService.generate_turn_instructions(path)`: instructions and
total distance, or a `ValueError`. A path of fewer than two vertices
returns `([], 0)` before anything else happens. -/
def generate_turn_instructions (g : Graph) (bearing : Point → Point → ℚ)
    (path : List Point) : Except String (List Instruction × ℚ) :=
  if path.length < 2 then .ok ([], 0)
  else
    match getEdgeData g (path.getD 0 pt0) (path.getD 1 pt0) with
    | none => .error missingEdgeMsg
    | some ed0 =>
      match (List.range (path.length - 1)).foldlM (gtiStep g bearing path)
          (⟨[], 0, 0, ed0.road_name⟩ : GtiState) with
      | .error m => .error m
      | .ok st => .ok (st.instructions ++ [arrivalInstruction st path], st.total)

/-! ## Graph builder (`backend/data/graph_builder.py`)

A source row is embedded as a resolved name plus the line geometries of
its (Multi)LineString; name resolution from the GeoDataFrame columns and
`None`-geometry skipping happen upstream of this representation. The
haversine metric is a parameter `hav` wherever the builder calls
`haversine_distance`. -/

/-- One GeoDataFrame row: resolved display name and decomposed lines. -/
structure Road where
  name : String
  lines : List (List Point)
  deriving DecidableEq, Repr

/-- The consecutive coordinate pairs of one line: a line with `n`
vertices yields `n - 1` segments. -/
def segPairs : List Point → List (Point × Point)
  | [] => []
  | [_] => []
  | a :: b :: t => (a, b) :: segPairs (b :: t)

/-- Add every segment of every row of one layer as an edge with weight
`hav p q`, the row name and the layer kind. -/
def addLayer (hav : Point → Point → ℚ) (ptype : String) (rows : List Road)
    (g : Graph) : Graph :=
  rows.foldl (fun g r =>
    r.lines.foldl (fun g line =>
      (segPairs line).foldl (fun g pq =>
        addEdge g pq.1 pq.2 ⟨hav pq.1 pq.2, r.name, ptype⟩) g) g) g

/-- The node list accumulated while adding one layer (`self.nodes` grows
by both endpoints of every segment). -/
def layerNodes (rows : List Road) : List Point :=
  rows.foldl (fun acc r =>
    r.lines.foldl (fun acc line =>
      (segPairs line).foldl (fun acc pq => acc ++ [pq.1, pq.2]) acc) acc) []

/-- A built `GraphBuilder`: graph plus deduplicated node list (the
`list(set(...))` snapshot the `cKDTree` is built over). -/
structure Builder where
  graph : Graph
  nodes : List Point
  deriving DecidableEq, Repr

/-- `GraphBuilder.build_from_roads(roads_gdf)`. -/
def build_from_roads (hav : Point → Point → ℚ) (roads : List Road) : Builder :=
  ⟨addLayer hav "road" roads emptyGraph, (layerNodes roads).dedup⟩

/-- `GraphBuilder.snap_to_graph(lon, lat)`: nearest node of the builder
index (raises on an empty, never-built index, hence `Option`). -/
def snap_to_graph (b : Builder) (p : Point) : Option Point :=
  treeQuery b.nodes p

/-- One bridging pass of `build_combined`: for every center, radius-query
the targets in degree space, then post-filter each candidate by the exact
haversine distance against the real threshold and by the absence of an
existing edge before adding a `Connection` edge weighted by that distance.
`skip` excludes the candidate with the same index as the center (the
self-exclusion of the footpath and road passes). -/
def bridgePass (hav : Point → Point → ℚ) (thr rdeg : ℚ) (skip : Bool)
    (centers targets : List Point) (g : Graph) : Graph :=
  centers.enum.foldl (fun g ic =>
    (ballIndices targets ic.2 rdeg).foldl (fun g j =>
      if skip && decide (j = ic.1) then g
      else
        let t := targets.getD j (0, 0)
        if hav ic.2 t ≤ thr ∧ hasEdge g ic.2 t = false then
          addEdge g ic.2 t ⟨hav ic.2 t, "Connection", "connection"⟩
        else g) g) g

/-- Stage 1 of `build_combined`: native road edges, then native footpath
edges, into an empty graph. -/
def combinedStage1 (hav : Point → Point → ℚ) (roads footpaths : List Road) : Graph :=
  addLayer hav "footpath" footpaths (addLayer hav "road" roads emptyGraph)

/-- The unique road nodes collected by `build_combined`. -/
def combinedRoadNodes (roads : List Road) : List Point :=
  (layerNodes roads).dedup

/-- The unique footpath nodes collected by `build_combined`. -/
def combinedFootNodes (footpaths : List Road) : List Point :=
  (layerNodes footpaths).dedup

/-- Stage 2: the footpath-to-road bridging pass (threshold 30 m), guarded
by both node sets being nonempty. `mpdl` is `_meters_per_degree_lon`
(transcendental, a parameter of the embedding). -/
def combinedStage2 (hav : Point → Point → ℚ) (mpdl : ℚ)
    (roads footpaths : List Road) : Graph :=
  let g1 := combinedStage1 hav roads footpaths
  if combinedRoadNodes roads ≠ [] ∧ combinedFootNodes footpaths ≠ [] then
    bridgePass hav 30 (30 / mpdl) false
      (combinedFootNodes footpaths) (combinedRoadNodes roads) g1
  else g1

/-- Stage 3: the footpath-to-footpath bridging pass (threshold 40 m). -/
def combinedStage3 (hav : Point → Point → ℚ) (mpdl : ℚ)
    (roads footpaths : List Road) : Graph :=
  let g2 := combinedStage2 hav mpdl roads footpaths
  if 1 < (combinedFootNodes footpaths).length then
    bridgePass hav 40 (40 / mpdl) true
      (combinedFootNodes footpaths) (combinedFootNodes footpaths) g2
  else g2

/-- Stage 4: the road-to-road bridging pass (threshold 25 m). -/
def combinedStage4 (hav : Point → Point → ℚ) (mpdl : ℚ)
    (roads footpaths : List Road) : Graph :=
  let g3 := combinedStage3 hav mpdl roads footpaths
  if 1 < (combinedRoadNodes roads).length then
    bridgePass hav 25 (25 / mpdl) true
      (combinedRoadNodes roads) (combinedRoadNodes roads) g3
  else g3

/-- `GraphBuilder.build_combined(roads_gdf, footpaths_gdf)`: native edges
of both layers, then the three bridging passes, then the node snapshot. -/
def build_combined (hav : Point → Point → ℚ) (mpdl : ℚ)
    (roads footpaths : List Road) : Builder :=
  ⟨combinedStage4 hav mpdl roads footpaths,
   (layerNodes roads ++ layerNodes footpaths).dedup⟩

/-! ## Routing service (`backend/services/routing_service.py`)

`nx.shortest_path` is a parameter `sp : Graph → Point → Point → Option
(List Point)`, with `none` standing for `NetworkXNoPath`. The exception
kinds are distinguished because the mode fallback catches only
`RouteNotFoundError`; a `ValueError` escaping the narrator and the crash
on an empty snap index propagate uncaught. -/

/-- The exceptions that can escape `calculate_route`. -/
inductive RouteError where
  /-- `RouteNotFoundError`, the only exception the mode fallback catches. -/
  | notFound (msg : String)
  /-- `ValueError` propagated from the narrator. -/
  | invalidPath (msg : String)
  /-- The crash of `snap_to_graph` on a builder with no index. -/
  | emptyGraph
  deriving DecidableEq, Repr

/-- The message of the final `RouteNotFoundError`. -/
def noPathMsg : String :=
  "No connected path found. Try selecting points closer to roads or paths."

/-- The dict returned by `calculate_route`: route geometry coordinates,
directions, truncated total distance and the mode actually used. -/
structure RouteResult where
  route_coords : List Point
  directions : List Instruction
  total_distance_m : ℤ
  mode : String
  deriving DecidableEq, Repr

/-- The state of a constructed `RoutingService`: the driving builder, the
optional walking builder, and the cached largest connected component of
the walking graph (`None` when the walking graph is connected or absent;
its correctness as a connected component is a constructor-time fact the
route claims do not depend on). -/
structure RoutingServiceState where
  driving : Builder
  walking : Option Builder
  walkingLargestComponent : Option (List Point)
  deriving DecidableEq, Repr

/-- The shared middle of `calculate_route`: the degenerate branch and the
direct shortest-path attempt on already-snapped vertices. `none` is the
`NetworkXNoPath` outcome the caller recovers from; `some` is a returned
or raised result. -/
def tryRoute (sp : Graph → Point → Point → Option (List Point))
    (bearing : Point → Point → ℚ) (g : Graph) (s e : Point) (m : String) :
    Option (Except RouteError RouteResult) :=
  if s = e then
    some (match generate_turn_instructions g bearing [s] with
          | .ok dt => .ok ⟨[s, e], dt.1, pyint dt.2, m⟩
          | .error msg => .error (.invalidPath msg))
  else
    match sp g s e with
    | some path =>
      some (match generate_turn_instructions g bearing path with
            | .ok dt => .ok ⟨path, dt.1, pyint dt.2, m⟩
            | .error msg => .error (.invalidPath msg))
    | none => none

/-- The connectivity fallback of walking mode: when a largest component
was cached (a nonempty set), re-snap each endpoint not already inside it
via `_find_nearest_in_component`, and when both endpoints resolve and
differ, retry the shortest path once. `none` means the recovery did not
produce a result and control falls through to the mode fallback. -/
def walkingRecovery (sp : Graph → Point → Point → Option (List Point))
    (bearing : Point → Point → ℚ) (g : Graph) (comp : Option (List Point))
    (startC endC s e : Point) : Option (Except RouteError RouteResult) :=
  match comp with
  | none => none
  | some c =>
    if c ≠ [] then
      let s1 := if s ∈ c then some s else treeQuery c startC
      let e1 := if e ∈ c then some e else treeQuery c endC
      match s1, e1 with
      | some s2, some e2 =>
        if s2 ≠ e2 then
          match sp g s2 e2 with
          | some path =>
            some (match generate_turn_instructions g bearing path with
                  | .ok dt => .ok ⟨path, dt.1, pyint dt.2, "walking"⟩
                  | .error msg => .error (.invalidPath msg))
          | none => none
        else none
      | _, _ => none
    else none

/-- The driving-only query: snap both coordinates on the driving builder,
run the shared middle with mode string `"driving"`, and raise
`RouteNotFoundError` on no path. This is both the non-walking branch of
`calculate_route` and the body its mode fallback re-enters with
`mode="driving"` (where neither walking fallback can fire again). -/
def drivingRoute (sp : Graph → Point → Point → Option (List Point))
    (bearing : Point → Point → ℚ) (svc : RoutingServiceState)
    (startC endC : Point) : Except RouteError RouteResult :=
  match treeQuery svc.driving.nodes startC, treeQuery svc.driving.nodes endC with
  | some s, some e =>
    (match tryRoute sp bearing svc.driving.graph s e "driving" with
     | some res => res
     | none => .error (.notFound noPathMsg))
  | _, _ => .error .emptyGraph

/-- `RoutingService.calculate_route(start_coords, end_coords, mode)`.
Any mode other than the exact string `"walking"`, and `"walking"` without
a walking builder, selects the driving graph with the mode silently
rewritten to `"driving"`. Walking queries recover from `NetworkXNoPath`
by one component re-snap retry, then one retry of the whole query against
the driving graph (whose `RouteNotFoundError` alone is caught), then
raise `RouteNotFoundError`. -/
def calculate_route (sp : Graph → Point → Point → Option (List Point))
    (bearing : Point → Point → ℚ) (svc : RoutingServiceState)
    (startC endC : Point) (mode : String) : Except RouteError RouteResult :=
  if mode = "walking" then
    match svc.walking with
    | some wb =>
      match treeQuery wb.nodes startC, treeQuery wb.nodes endC with
      | some s, some e =>
        (match tryRoute sp bearing wb.graph s e "walking" with
         | some res => res
         | none =>
           match walkingRecovery sp bearing wb.graph svc.walkingLargestComponent
               startC endC s e with
           | some res => res
           | none =>
             match drivingRoute sp bearing svc startC endC with
             | .ok r => .ok r
             | .error (.notFound _) => .error (.notFound noPathMsg)
             | .error err => .error err)
      | _, _ => .error .emptyGraph
    | none => drivingRoute sp bearing svc startC endC
  else drivingRoute sp bearing svc startC endC

/-- The builder and mode string `calculate_route` selects for a requested
mode: the walking builder only for the exact string `"walking"` when one
exists, the driving builder with mode `"driving"` otherwise. -/
def activeBuilder (svc : RoutingServiceState) (mode : String) : Builder × String :=
  if mode = "walking" then
    match svc.walking with
    | some wb => (wb, "walking")
    | none => (svc.driving, "driving")
  else (svc.driving, "driving")

/-! ## Helper lemmas about the graph primitives -/

/-- `entryMatch` only inspects the endpoint pair of an entry. -/
theorem entryMatch_data (u v : Point) (e : Point × Point × EdgeData) (d : EdgeData) :
    entryMatch u v (e.1, e.2.1, d) = entryMatch u v e := rfl

/-- The canonical entry matches its own pair. -/
theorem entryMatch_self (u v : Point) (d : EdgeData) :
    entryMatch u v (u, v, d) = true := by
  simp [entryMatch]

/-- After replacing the data of the edge `{u, v}` in a list that holds
one, the lookup of `{u, v}` returns the new data. -/
theorem find?_replaceFirst (l : List (Point × Point × EdgeData)) (u v : Point)
    (d : EdgeData) (h : l.any (entryMatch u v) = true) :
    ((replaceFirst l u v d).find? (entryMatch u v)).map (fun e => e.2.2) = some d := by
  induction l with
  | nil => simp at h
  | cons e t ih =>
    by_cases hm : entryMatch u v e = true
    · rw [replaceFirst, if_pos hm]
      rw [List.find?_cons_of_pos _ (by rw [entryMatch_data, hm])]
      rfl
    · rw [replaceFirst, if_neg hm]
      rw [List.find?_cons_of_neg _ hm]
      refine ih ?_
      simp only [List.any_cons, Bool.or_eq_true] at h
      rcases h with h | h
      · exact absurd h hm
      · exact h

/-- `add_edge` followed by `get_edge_data` on the same pair returns the
data just written, whether the edge was fresh or replaced. -/
theorem getEdgeData_addEdge (g : Graph) (u v : Point) (d : EdgeData) :
    getEdgeData (addEdge g u v d) u v = some d := by
  by_cases h : hasEdge g u v = true
  · rw [addEdge, if_pos h]
    exact find?_replaceFirst g.edges u v d h
  · rw [addEdge, if_neg h]
    rw [getEdgeData]
    have hnone : g.edges.find? (entryMatch u v) = none := by
      rcases hf : g.edges.find? (entryMatch u v) with _ | e
      · rfl
      · exact absurd (by
          refine List.any_eq_true.mpr ⟨e, List.mem_of_find?_eq_some hf, ?_⟩
          exact List.find?_some hf) h
    simp only [List.find?_append, hnone, Option.none_orElse]
    rw [List.find?_cons_of_pos _ (entryMatch_self u v d)]
    rfl

/-- Adding a fresh edge appends exactly one entry. -/
theorem addEdge_eq_append (g : Graph) (u v : Point) (d : EdgeData)
    (h : hasEdge g u v = false) :
    (addEdge g u v d).edges = g.edges ++ [(u, v, d)] := by
  rw [addEdge, if_neg (by rw [h]; exact Bool.false_ne_true)]

/-- `has_edge` is monotone under appending entries, contrapositively: a
pair with no edge in the extended graph had none in the base graph. -/
theorem hasEdge_false_of_append {g g1 : Graph} {t : List (Point × Point × EdgeData)}
    (hext : g1.edges = g.edges ++ t) {u v : Point}
    (hf : hasEdge g1 u v = false) : hasEdge g u v = false := by
  rw [hasEdge, hext, List.any_append, Bool.or_eq_false_iff] at hf
  exact hf.1

/-! ## Helper lemmas about the spatial index -/

/-- The squared metric is zero exactly on equal points. -/
theorem sqDist_eq_zero_iff (p q : Point) : sqDist p q = 0 ↔ p = q := by
  constructor
  · intro h
    rw [sqDist] at h
    have h1 : (p.1 - q.1) ^ 2 = 0 ∧ (p.2 - q.2) ^ 2 = 0 := by
      constructor <;> nlinarith [sq_nonneg (p.1 - q.1), sq_nonneg (p.2 - q.2)]
    have e1 : p.1 = q.1 := by
      have := pow_eq_zero_iff (n := 2) (by norm_num) |>.mp h1.1
      linarith
    have e2 : p.2 = q.2 := by
      have := pow_eq_zero_iff (n := 2) (by norm_num) |>.mp h1.2
      linarith
    exact Prod.ext e1 e2
  · intro h
    subst h
    simp [sqDist]

/-- The running-minimum fold of `treeQuery`: the result is the seed or a
member, is at least as close as the seed, and is at least as close as
every member. -/
theorem treeQuery_foldl_spec (q : Point) (l : List Point) (b : Point) :
    (l.foldl (fun best x => if sqDist q x < sqDist q best then x else best) b = b ∨
      l.foldl (fun best x => if sqDist q x < sqDist q best then x else best) b ∈ l) ∧
    sqDist q (l.foldl (fun best x => if sqDist q x < sqDist q best then x else best) b) ≤
      sqDist q b ∧
    ∀ w ∈ l,
      sqDist q (l.foldl (fun best x => if sqDist q x < sqDist q best then x else best) b) ≤
        sqDist q w := by
  induction l generalizing b with
  | nil => exact ⟨Or.inl rfl, le_refl _, by intro w hw; simp at hw⟩
  | cons x t ih =>
    simp only [List.foldl_cons]
    by_cases hx : sqDist q x < sqDist q b
    · rw [if_pos hx]
      rcases ih x with ⟨hmem, hle, hall⟩
      refine ⟨?_, ?_, ?_⟩
      · rcases hmem with h | h
        · exact Or.inr (by rw [h]; exact List.mem_cons_self x t)
        · exact Or.inr (List.mem_cons_of_mem x h)
      · exact le_trans hle (le_of_lt hx)
      · intro w hw
        rcases List.mem_cons.mp hw with h | h
        · rw [h]; exact hle
        · exact hall w h
    · rw [if_neg hx]
      rcases ih b with ⟨hmem, hle, hall⟩
      refine ⟨?_, hle, ?_⟩
      · rcases hmem with h | h
        · exact Or.inl h
        · exact Or.inr (List.mem_cons_of_mem x h)
      · intro w hw
        rcases List.mem_cons.mp hw with h | h
        · rw [h]
          exact le_trans hle (le_of_not_lt hx)
        · exact hall w h

/-- `treeQuery` on a nonempty point set returns a member that is nearest
to the query under the index metric. -/
theorem treeQuery_spec (pts : List Point) (q : Point) (h : pts ≠ []) :
    ∃ u, treeQuery pts q = some u ∧ u ∈ pts ∧
      ∀ w ∈ pts, sqDist q u ≤ sqDist q w := by
  match pts, h with
  | p :: rest, _ =>
    rcases treeQuery_foldl_spec q rest p with ⟨hmem, hle, hall⟩
    refine ⟨_, rfl, ?_, ?_⟩
    · rcases hmem with h | h
      · rw [h]; exact List.mem_cons_self p rest
      · exact List.mem_cons_of_mem p h
    · intro w hw
      rcases List.mem_cons.mp hw with h | h
      · rw [h]; exact hle
      · exact hall w h

/-- Snapping a point that is itself a member returns that point: its own
distance is zero, zero is the unique minimum of the metric, and the
running-minimum fold only moves on strict improvement. -/
theorem treeQuery_self (pts : List Point) (v : Point) (h : v ∈ pts) :
    treeQuery pts v = some v := by
  have hne : pts ≠ [] := List.ne_nil_of_mem h
  rcases treeQuery_spec pts v hne with ⟨u, hq, _, hall⟩
  have h0 : sqDist v u ≤ 0 := by
    have := hall v h
    rwa [(sqDist_eq_zero_iff v v).mpr rfl] at this
  have hz : sqDist v u = 0 := le_antisymm h0 (by
    rw [sqDist]
    positivity)
  have : v = u := (sqDist_eq_zero_iff v u).mp hz
  rw [hq, ← this]

/-! ## Helper lemmas about the bridging passes -/

/-- The shape of every connection edge added by a pass with haversine
stand-in `hav` and real threshold `thr`: the entry carries exactly the
`Connection` attributes, its weight is the exact distance of its
endpoints, and that distance is within the threshold. -/
def ConnEntryOK (hav : Point → Point → ℚ) (thr : ℚ)
    (e : Point × Point × EdgeData) : Prop :=
  e.2.2 = ⟨hav e.1 e.2.1, "Connection", "connection"⟩ ∧ hav e.1 e.2.1 ≤ thr

/-- A fold whose every step appends only well-formed fresh connection
entries itself appends only well-formed fresh connection entries. -/
theorem foldl_bridge_spec {α : Type} (f : Graph → α → Graph)
    (hav : Point → Point → ℚ) (thr : ℚ)
    (hf : ∀ g a, ∃ t, (f g a).edges = g.edges ++ t ∧
      ∀ e ∈ t, ConnEntryOK hav thr e ∧ hasEdge g e.1 e.2.1 = false) :
    ∀ (l : List α) (g : Graph), ∃ t, (l.foldl f g).edges = g.edges ++ t ∧
      ∀ e ∈ t, ConnEntryOK hav thr e ∧ hasEdge g e.1 e.2.1 = false := by
  intro l
  induction l with
  | nil => exact fun g => ⟨[], by simp, by intro e he; simp at he⟩
  | cons a l ih =>
    intro g
    rcases hf g a with ⟨t1, hext1, hok1⟩
    rcases ih (f g a) with ⟨t2, hext2, hok2⟩
    refine ⟨t1 ++ t2, ?_, ?_⟩
    · rw [List.foldl_cons, hext2, hext1, List.append_assoc]
    · intro e he
      rcases List.mem_append.mp he with h | h
      · exact hok1 e h
      · rcases hok2 e h with ⟨hok, hfresh⟩
        exact ⟨hok, hasEdge_false_of_append hext1 hfresh⟩

/-- The inner candidate loop of a bridging pass appends only well-formed
fresh connection entries. -/
theorem bridge_inner_spec (hav : Point → Point → ℚ) (thr : ℚ)
    (skip : Bool) (targets : List Point) (ic : ℕ × Point) :
    ∀ (js : List ℕ) (g : Graph),
      ∃ t, ((js.foldl (fun g j =>
          if skip && decide (j = ic.1) then g
          else
            let x := targets.getD j (0, 0)
            if hav ic.2 x ≤ thr ∧ hasEdge g ic.2 x = false then
              addEdge g ic.2 x ⟨hav ic.2 x, "Connection", "connection"⟩
            else g) g).edges = g.edges ++ t) ∧
        ∀ e ∈ t, ConnEntryOK hav thr e ∧ hasEdge g e.1 e.2.1 = false := by
  refine foldl_bridge_spec _ hav thr ?_
  intro g j
  by_cases hskip : (skip && decide (j = ic.1)) = true
  · rw [if_pos hskip]
    exact ⟨[], by simp, by intro e he; simp at he⟩
  · rw [if_neg hskip]
    by_cases hc : hav ic.2 (targets.getD j (0, 0)) ≤ thr ∧
        hasEdge g ic.2 (targets.getD j (0, 0)) = false
    · rw [if_pos hc]
      refine ⟨[(ic.2, targets.getD j (0, 0),
        ⟨hav ic.2 (targets.getD j (0, 0)), "Connection", "connection"⟩)],
        addEdge_eq_append g _ _ _ hc.2, ?_⟩
      intro e he
      rcases List.mem_singleton.mp he with rfl
      exact ⟨⟨rfl, hc.1⟩, hc.2⟩
    · rw [if_neg hc]
      exact ⟨[], by simp, by intro e he; simp at he⟩

/-- A whole bridging pass appends only entries that carry the
`Connection` attributes, are weighted by the exact distance of their
endpoints, lie within the real threshold of the pass, and join a pair
that had no edge before the pass. -/
theorem bridgePass_spec (hav : Point → Point → ℚ) (thr rdeg : ℚ) (skip : Bool)
    (centers targets : List Point) (g : Graph) :
    ∃ t, (bridgePass hav thr rdeg skip centers targets g).edges = g.edges ++ t ∧
      ∀ e ∈ t, ConnEntryOK hav thr e ∧ hasEdge g e.1 e.2.1 = false := by
  refine foldl_bridge_spec _ hav thr ?_ centers.enum g
  intro g ic
  exact bridge_inner_spec hav thr skip targets ic (ballIndices targets ic.2 rdeg) g

/-! ## Helper lemmas about the narrator and the router -/

/-- If some index of the loop fails from every state, the whole monadic
fold fails. -/
theorem foldlM_error {σ : Type} (step : σ → ℕ → Except String σ) (j : ℕ)
    (hstep : ∀ st, ∃ m, step st j = .error m) :
    ∀ (js : List ℕ) (st : σ), j ∈ js → ∃ m, js.foldlM step st = .error m := by
  intro js
  induction js with
  | nil => intro st hj; simp at hj
  | cons a t ih =>
    intro st hj
    rw [List.foldlM_cons]
    rcases ha : step st a with m | st1
    · exact ⟨m, rfl⟩
    · rcases List.mem_cons.mp hj with h | h
      · subst h
        rcases hstep st with ⟨m, hm⟩
        rw [ha] at hm
        exact absurd hm (by simp)
      · rcases ih st1 h with ⟨m, hm⟩
        exact ⟨m, by simpa using hm⟩

/-- Every successful driving-branch result reports mode `"driving"`. -/
theorem drivingRoute_mode (sp : Graph → Point → Point → Option (List Point))
    (bearing : Point → Point → ℚ) (svc : RoutingServiceState)
    (startC endC : Point) (r : RouteResult)
    (h : drivingRoute sp bearing svc startC endC = .ok r) : r.mode = "driving" := by
  rw [drivingRoute] at h
  split at h
  case h_2 => exact absurd h (by simp)
  case h_1 s e hs he =>
    split at h
    case h_2 => exact absurd h (by simp)
    case h_1 res htr =>
      subst h
      rw [tryRoute] at htr
      by_cases hse : s = e
      · rw [if_pos hse] at htr
        split at htr
        · simp only [Option.some.injEq, Except.ok.injEq] at htr
          subst htr
          rfl
        · simp at htr
      · rw [if_neg hse] at htr
        split at htr
        · split at htr
          · simp only [Option.some.injEq, Except.ok.injEq] at htr
            subst htr
            rfl
          · simp at htr
        · simp at htr

end NasrdaNavi

deriving instance DecidableEq for Except

namespace NasrdaNavi

/-! ## Claim theorems -/

/-- Claim C4, counterexample. The claim states that `calculate_bearing`
computes the spherical forward azimuth normalized into `[0, 360)`. At
`a = (0, 0)`, `b = (0, -1)` (due south) the code returns `-90`, a
negative value outside `[0, 360)` (and the planar east-based angle, not
the compass bearing 180). -/
theorem calculate_bearing_south_counterexample :
    calculate_bearing (0, 0) (0, -1) = -90 ∧ calculate_bearing (0, 0) (0, -1) < 0 := by
  have harg : calculate_bearing (0, 0) (0, -1) = (180 / Real.pi) * -(Real.pi / 2) := by
    rw [calculate_bearing, atan2]
    have h : (⟨0 - 0, -1 - 0⟩ : ℂ) = -Complex.I := by
      apply Complex.ext <;> simp
    rw [h, Complex.arg_neg_I]
  have hval : (180 / Real.pi) * -(Real.pi / 2) = -90 := by
    field_simp
    ring
  constructor
  · rw [harg, hval]
  · rw [harg, hval]
    norm_num

/-- Claim C4, amended: `calculate_bearing` returns the planar
`math.degrees(math.atan2(lat2 - lat1, lon2 - lon1))` — the mathematical
angle of the coordinate delta measured from east — and its value lies in
`(-180, 180]`, not `[0, 360)`. -/
theorem calculate_bearing_planar_range (p1 p2 : ℝ × ℝ) :
    calculate_bearing p1 p2 = (180 / Real.pi) * atan2 (p2.2 - p1.2) (p2.1 - p1.1) ∧
    -180 < calculate_bearing p1 p2 ∧ calculate_bearing p1 p2 ≤ 180 := by
  refine ⟨rfl, ?_, ?_⟩ <;>
  · have ha := Complex.arg_mem_Ioc (⟨p2.1 - p1.1, p2.2 - p1.2⟩ : ℂ)
    rcases Set.mem_Ioc.mp ha with ⟨hlo, hhi⟩
    have hpos : (0 : ℝ) < 180 / Real.pi := by positivity
    have e1 : (180 / Real.pi) * (-Real.pi) = -180 := by field_simp
    have e2 : (180 / Real.pi) * Real.pi = 180 := by field_simp
    have h1 := mul_lt_mul_of_pos_left hlo hpos
    have h2 := mul_le_mul_of_nonneg_left hhi (le_of_lt hpos)
    rw [calculate_bearing, atan2]
    linarith [e1 ▸ h1, e2 ▸ h2]

/-- Claim C5, counterexample. The claim partitions the classification
into `|d| < 20` straight, `d > 20` left, `d ≤ -20` right with no gap.
The boundary `d = +20` satisfies none of those three ranges, yet the
code classifies it — as `"Turn right"` (the `else` arm). -/
theorem turn_direction_boundary_counterexample :
    turn_direction 20 = "Turn right" ∧
    ¬(|(20 : ℚ)| < 20) ∧ ¬((20 : ℚ) > 20) ∧ ¬((20 : ℚ) ≤ -20) := by
  refine ⟨by with_unfolding_all decide, by norm_num, by norm_num, by norm_num⟩

/-- Claim C5, amended: `turn_direction` classifies `|d| < 20` as
straight and `d > 20` as left, and its right class is exactly
`d ≤ -20` together with the boundary `d = +20`; every input receives
exactly one class, so the function is total with no overlap, but the
`+20` boundary falls in the right class, not the left. -/
theorem turn_direction_classes (d : ℚ) :
    (turn_direction d = "Continue straight" ↔ |d| < 20) ∧
    (turn_direction d = "Turn left" ↔ 20 < d) ∧
    (turn_direction d = "Turn right" ↔ (d ≤ -20 ∨ d = 20)) := by
  by_cases h1 : |d| < 20
  · have hd := abs_lt.mp h1
    rw [turn_direction, if_pos h1]
    refine ⟨by simp [h1], ?_, ?_⟩
    · constructor
      · intro h; exact absurd h (by decide)
      · intro h; linarith [hd.2]
    · constructor
      · intro h; exact absurd h (by decide)
      · rintro (h | h) <;> linarith [hd.1, hd.2]
  · by_cases h2 : d > 20
    · rw [turn_direction, if_neg h1, if_pos h2]
      refine ⟨?_, by simp [h2], ?_⟩
      · constructor
        · intro h; exact absurd h (by decide)
        · intro h; exact absurd h h1
      · constructor
        · intro h; exact absurd h (by decide)
        · rintro (h | h) <;> linarith
    · rw [turn_direction, if_neg h1, if_neg h2]
      have h20 : 20 ≤ |d| := le_of_not_lt h1
      have hle : d ≤ 20 := le_of_not_lt h2
      have hcase : d ≤ -20 ∨ d = 20 := by
        rcases le_abs.mp h20 with h | h
        · right; linarith
        · left; linarith
      refine ⟨?_, ?_, by simp [hcase]⟩
      · constructor
        · intro h; exact absurd h (by decide)
        · intro h; exact absurd h h1
      · constructor
        · intro h; exact absurd h (by decide)
        · intro h; exact absurd h h2

/-- Claim C6, counterexample. The claim states the normalized difference
lies in `(-180, 180]` with a raw difference of `180` reported as `+180`.
The code computes `(180 + 180) % 360 - 180 = -180`: the raw difference
`180` is reported as `-180`, never `+180`. -/
theorem norm_diff_at_180_counterexample :
    norm_diff 180 = -180 ∧ norm_diff 180 ≠ 180 := by
  constructor <;> with_unfolding_all decide

/-- Claim C6, amended: the narrator normalization
`(diff + 180) % 360 - 180` (Python float modulo) lands in the half-open
interval `[-180, 180)` — closed at `-180`, open at `180` — and differs
from the raw difference by an exact multiple of 360. -/
theorem norm_diff_range (x : ℚ) :
    -180 ≤ norm_diff x ∧ norm_diff x < 180 ∧
    ∃ k : ℤ, x - norm_diff x = 360 * (k : ℚ) := by
  have h1 : ((⌊(x + 180) / 360⌋ : ℤ) : ℚ) * 360 ≤ x + 180 := by
    have := Int.floor_le ((x + 180) / 360)
    rwa [le_div_iff (by norm_num : (0:ℚ) < 360)] at this
  have h2 : x + 180 < (((⌊(x + 180) / 360⌋ : ℤ) : ℚ) + 1) * 360 := by
    have := Int.lt_floor_add_one ((x + 180) / 360)
    rwa [div_lt_iff (by norm_num : (0:ℚ) < 360)] at this
  refine ⟨?_, ?_, ⟨⌊(x + 180) / 360⌋, ?_⟩⟩
  · rw [norm_diff]; linarith
  · rw [norm_diff]; linarith
  · rw [norm_diff]; ring

/-- Claim C7, counterexample. The claim states that when a decomposed
segment hits an endpoint pair that already has an edge, the first
writer's attributes are kept. Building from two roads `"A"` then `"B"`
over the same segment leaves the edge named `"B"`: the later writer
replaced the attributes. -/
theorem duplicate_edge_first_writer_counterexample :
    (getEdgeData (build_from_roads (fun _ _ => 1)
        [⟨"A", [[(0, 0), (1, 0)]]⟩, ⟨"B", [[(0, 0), (1, 0)]]⟩]).graph
      (0, 0) (1, 0)).map EdgeData.road_name = some "B" ∧ "B" ≠ "A" := by
  constructor
  · with_unfolding_all decide
  · decide

/-- Claim C7, amended: last writer wins. Re-adding a segment over an
endpoint pair that already has an edge replaces the stored weight, name
and kind with the later segment's attributes (the `networkx`
`add_edge` update semantics). -/
theorem duplicate_edge_last_writer (hav : Point → Point → ℚ) (roads : List Road)
    (nm : String) (p q : Point)
    (h : hasEdge (build_from_roads hav roads).graph p q = true) :
    getEdgeData (build_from_roads hav (roads ++ [⟨nm, [[p, q]]⟩])).graph p q =
      some ⟨hav p q, nm, "road"⟩ := by
  have hsplit : (build_from_roads hav (roads ++ [⟨nm, [[p, q]]⟩])).graph =
      addEdge (build_from_roads hav roads).graph p q ⟨hav p q, nm, "road"⟩ := by
    show addLayer hav "road" (roads ++ [⟨nm, [[p, q]]⟩]) emptyGraph = _
    simp only [addLayer, List.foldl_append]
    rfl
  rw [hsplit]
  exact getEdgeData_addEdge _ p q _

/-- Claim C7, amended, witness at a concrete input: a prior `"A"` edge
over `{(0,0), (1,0)}` exists, and rebuilding with a trailing `"B"` road
over the same pair stores the `"B"` attributes. -/
theorem duplicate_edge_last_writer_witness :
    getEdgeData (build_from_roads (fun _ _ => 1)
        ([⟨"A", [[(0, 0), (1, 0)]]⟩] ++ [⟨"B", [[(0, 0), (1, 0)]]⟩])).graph
      (0, 0) (1, 0) = some ⟨1, "B", "road"⟩ :=
  duplicate_edge_last_writer (fun _ _ => 1) [⟨"A", [[(0, 0), (1, 0)]]⟩] "B"
    (0, 0) (1, 0) (by with_unfolding_all decide)

/-- Claim C9: snapping is the nearest-vertex query of the builder index.
A vertex already in the node set snaps to itself, and an arbitrary point
snaps to an existing vertex nearest under the index metric whenever the
node set is nonempty. -/
theorem snap_to_graph_spec (b : Builder) (p v : Point) :
    (v ∈ b.nodes → snap_to_graph b v = some v) ∧
    (b.nodes ≠ [] → ∃ u, snap_to_graph b p = some u ∧ u ∈ b.nodes ∧
      ∀ w ∈ b.nodes, sqDist p u ≤ sqDist p w) :=
  ⟨fun h => treeQuery_self b.nodes v h, fun h => treeQuery_spec b.nodes p h⟩

/-- Claim C9, witness: on the two-node index `[(0,0), (3,4)]` the member
`(3,4)` snaps to itself. -/
theorem snap_to_graph_spec_witness :
    (3, 4) ∈ ([(0, 0), (3, 4)] : List Point) ∧
    snap_to_graph ⟨emptyGraph, [(0, 0), (3, 4)]⟩ ((3 : ℚ), (4 : ℚ)) = some (3, 4) :=
  ⟨by with_unfolding_all decide,
   (snap_to_graph_spec ⟨emptyGraph, [(0, 0), (3, 4)]⟩ (3, 4) (3, 4)).1
     (by with_unfolding_all decide)⟩

/-- Claim C8: a path that references an edge absent from the graph makes
the narrator raise (`ValueError`), not return; no default weight is ever
folded into the totals for a missing edge. -/
theorem generate_turn_instructions_missing_edge (g : Graph)
    (bearing : Point → Point → ℚ) (path : List Point) (i : ℕ)
    (h1 : i + 1 < path.length)
    (h2 : getEdgeData g (path.getD i pt0) (path.getD (i + 1) pt0) = none) :
    ∃ m, generate_turn_instructions g bearing path = .error m := by
  have hlen : ¬ path.length < 2 := by omega
  rw [generate_turn_instructions, if_neg hlen]
  rcases h0 : getEdgeData g (path.getD 0 pt0) (path.getD 1 pt0) with _ | ed0
  · exact ⟨missingEdgeMsg, rfl⟩
  · have hstep : ∀ st, ∃ m, gtiStep g bearing path st i = .error m := by
      intro st
      rw [gtiStep, h2]
      exact ⟨missingEdgeMsg, rfl⟩
    have hmem : i ∈ List.range (path.length - 1) := List.mem_range.mpr (by omega)
    rcases foldlM_error (gtiStep g bearing path) i hstep
        (List.range (path.length - 1)) ⟨[], 0, 0, ed0.road_name⟩ hmem with ⟨m, hm⟩
    exact ⟨m, by simp only [hm]⟩

/-- A new entry of a bridging pass (present after, absent before) has
the `Connection` attributes, the exact distance as weight within the
threshold, and joins a previously unconnected pair. -/
theorem mem_bridgePass_new (hav : Point → Point → ℚ) (thr rdeg : ℚ) (skip : Bool)
    (cs ts : List Point) (g : Graph) (u v : Point) (d : EdgeData)
    (hmem : (u, v, d) ∈ (bridgePass hav thr rdeg skip cs ts g).edges)
    (hnot : (u, v, d) ∉ g.edges) :
    d = ⟨hav u v, "Connection", "connection"⟩ ∧ hav u v ≤ thr ∧
      hasEdge g u v = false := by
  rcases bridgePass_spec hav thr rdeg skip cs ts g with ⟨t, hext, hok⟩
  rw [hext] at hmem
  rcases List.mem_append.mp hmem with h | h
  · exact absurd h hnot
  · rcases hok _ h with ⟨⟨hd, hthr⟩, hfresh⟩
    exact ⟨hd, hthr, hfresh⟩

/-- As `mem_bridgePass_new`, through the guard of a conditional pass. -/
theorem mem_ite_bridge {c : Prop} [Decidable c] (hav : Point → Point → ℚ)
    (thr rdeg : ℚ) (skip : Bool) (cs ts : List Point) (g : Graph)
    (u v : Point) (d : EdgeData)
    (hmem : (u, v, d) ∈ (if c then bridgePass hav thr rdeg skip cs ts g else g).edges)
    (hnot : (u, v, d) ∉ g.edges) :
    d = ⟨hav u v, "Connection", "connection"⟩ ∧ hav u v ≤ thr ∧
      hasEdge g u v = false := by
  by_cases hc : c
  · rw [if_pos hc] at hmem
    exact mem_bridgePass_new hav thr rdeg skip cs ts g u v d hmem hnot
  · rw [if_neg hc] at hmem
    exact absurd hmem hnot

/-- Claim C3: every `Connection` edge added by a bridging pass of the
walking build joins a pair with no pre-existing edge at its stage, its
exact distance is within the threshold of the pass that added it (30 m
footpath to road, 40 m footpath to footpath, 25 m road to road), and its
weight is that exact distance; the degree-space radius candidates only
become edges after passing the distance check. -/
theorem build_combined_connection_invariant (hav : Point → Point → ℚ) (mpdl : ℚ)
    (roads footpaths : List Road) (u v : Point) (d : EdgeData) :
    ((u, v, d) ∈ (combinedStage2 hav mpdl roads footpaths).edges →
      (u, v, d) ∉ (combinedStage1 hav roads footpaths).edges →
      d = ⟨hav u v, "Connection", "connection"⟩ ∧ hav u v ≤ 30 ∧
        hasEdge (combinedStage1 hav roads footpaths) u v = false) ∧
    ((u, v, d) ∈ (combinedStage3 hav mpdl roads footpaths).edges →
      (u, v, d) ∉ (combinedStage2 hav mpdl roads footpaths).edges →
      d = ⟨hav u v, "Connection", "connection"⟩ ∧ hav u v ≤ 40 ∧
        hasEdge (combinedStage2 hav mpdl roads footpaths) u v = false) ∧
    ((u, v, d) ∈ (combinedStage4 hav mpdl roads footpaths).edges →
      (u, v, d) ∉ (combinedStage3 hav mpdl roads footpaths).edges →
      d = ⟨hav u v, "Connection", "connection"⟩ ∧ hav u v ≤ 25 ∧
        hasEdge (combinedStage3 hav mpdl roads footpaths) u v = false) ∧
    (build_combined hav mpdl roads footpaths).graph =
      combinedStage4 hav mpdl roads footpaths := by
  refine ⟨fun hmem hnot => ?_, fun hmem hnot => ?_, fun hmem hnot => ?_, rfl⟩
  · exact mem_ite_bridge hav 30 (30 / mpdl) false
      (combinedFootNodes footpaths) (combinedRoadNodes roads)
      (combinedStage1 hav roads footpaths) u v d hmem hnot
  · exact mem_ite_bridge hav 40 (40 / mpdl) true
      (combinedFootNodes footpaths) (combinedFootNodes footpaths)
      (combinedStage2 hav mpdl roads footpaths) u v d hmem hnot
  · exact mem_ite_bridge hav 25 (25 / mpdl) true
      (combinedRoadNodes roads) (combinedRoadNodes roads)
      (combinedStage3 hav mpdl roads footpaths) u v d hmem hnot

/-- A concrete haversine stand-in for the build fixtures: a scaled
taxicab distance, exact over the rationals. -/
def havFix : Point → Point → ℚ :=
  fun p q => |p.1 - q.1| * 100 + |p.2 - q.2| * 100

/-- One road along the x axis. -/
def roadsFix : List Road := [⟨"R", [[(0, 0), (1, 0)]]⟩]

/-- One footpath 1/10 degree (10 fixture-meters) above the road. -/
def footFix : List Road := [⟨"F", [[(0, 1/10), (1, 1/10)]]⟩]

/-- Claim C3, witness: in the fixture build the footpath-to-road pass
adds the connection entry from `(0, 1/10)` to `(0, 0)` (distance 10,
within 30) over a pair with no stage-1 edge. -/
theorem build_combined_connection_invariant_witness :
    havFix (0, 1/10) (0, 0) ≤ 30 ∧
    hasEdge (combinedStage1 havFix roadsFix footFix) (0, 1/10) (0, 0) = false :=
  ((build_combined_connection_invariant havFix 100 roadsFix footFix
      (0, 1/10) (0, 0) ⟨10, "Connection", "connection"⟩).1
    (by with_unfolding_all decide) (by with_unfolding_all decide)).2

/-- Claim C8, witness: the path `[(0,0), (1,0), (2,0)]` over a graph
holding only the edge `{(0,0), (1,0)}` makes the narrator fail. -/
theorem generate_turn_instructions_missing_edge_witness :
    (generate_turn_instructions ⟨[((0, 0), (1, 0), ⟨5, "R", "road"⟩)]⟩
        (fun _ _ => 0) [(0, 0), (1, 0), (2, 0)]).toOption = none := by
  obtain ⟨m, hm⟩ := generate_turn_instructions_missing_edge
    ⟨[((0, 0), (1, 0), ⟨5, "R", "road"⟩)]⟩ (fun _ _ => 0)
    [(0, 0), (1, 0), (2, 0)] 1 (by decide) (by with_unfolding_all decide)
  rw [hm]
  rfl

/-- On equal snapped vertices the shared middle returns the degenerate
route immediately: vertex pair repeated, empty directions, distance 0. -/
theorem tryRoute_self (sp : Graph → Point → Point → Option (List Point))
    (bearing : Point → Point → ℚ) (g : Graph) (v : Point) (m : String) :
    tryRoute sp bearing g v v m = some (.ok ⟨[v, v], [], 0, m⟩) := by
  rw [tryRoute, if_pos rfl]
  with_unfolding_all rfl

/-- The driving branch on a degenerate (equal-snap) query. -/
theorem drivingRoute_degenerate (sp : Graph → Point → Point → Option (List Point))
    (bearing : Point → Point → ℚ) (svc : RoutingServiceState) (sc ec : Point)
    (v : Point) (h1 : treeQuery svc.driving.nodes sc = some v)
    (h2 : treeQuery svc.driving.nodes ec = some v) :
    drivingRoute sp bearing svc sc ec = .ok ⟨[v, v], [], 0, "driving"⟩ := by
  rw [drivingRoute]
  simp only [h1, h2, tryRoute_self]

/-- Claim C2, amended: a query whose two snapped vertices coincide
returns the snapped vertex repeated twice, total distance 0, the mode
actually selected — and an empty instruction list (`[], 0` is returned
for any path shorter than two vertices, so no arrival instruction is
emitted). -/
theorem calculate_route_degenerate (sp : Graph → Point → Point → Option (List Point))
    (bearing : Point → Point → ℚ) (svc : RoutingServiceState) (sc ec : Point)
    (mode : String) (v : Point)
    (h1 : treeQuery (activeBuilder svc mode).1.nodes sc = some v)
    (h2 : treeQuery (activeBuilder svc mode).1.nodes ec = some v) :
    calculate_route sp bearing svc sc ec mode =
      .ok ⟨[v, v], [], 0, (activeBuilder svc mode).2⟩ := by
  by_cases hm : mode = "walking"
  · rw [calculate_route, if_pos hm]
    rcases hw : svc.walking with _ | wb
    · simp only [activeBuilder, if_pos hm, hw] at h1 h2 ⊢
      exact drivingRoute_degenerate sp bearing svc sc ec v h1 h2
    · simp only [activeBuilder, if_pos hm, hw] at h1 h2 ⊢
      simp only [h1, h2, tryRoute_self]
  · rw [calculate_route, if_neg hm]
    simp only [activeBuilder, if_neg hm] at h1 h2 ⊢
    exact drivingRoute_degenerate sp bearing svc sc ec v h1 h2

/-- The driving-only service fixture: one snap node, empty graph, no
walking builder. -/
def svcFix : RoutingServiceState := ⟨⟨emptyGraph, [(0, 0)]⟩, none, none⟩

/-- Claim C2, amended, witness: both query points snap to the single node
`(0,0)`, and the degenerate result carries the pair, no directions,
distance 0 and the selected mode. -/
theorem calculate_route_degenerate_witness :
    calculate_route (fun _ _ _ => none) (fun _ _ => 0) svcFix (1, 1) (2, 2) "driving" =
      .ok ⟨[(0, 0), (0, 0)], [], 0, (activeBuilder svcFix "driving").2⟩ ∧
    (activeBuilder svcFix "driving").2 = "driving" :=
  ⟨calculate_route_degenerate (fun _ _ _ => none) (fun _ _ => 0) svcFix (1, 1) (2, 2)
      "driving" (0, 0) (by with_unfolding_all decide) (by with_unfolding_all decide),
   by with_unfolding_all decide⟩

/-- Claim C2, counterexample. The claim demands exactly one (arrival)
instruction for a degenerate query; the code returns zero instructions
(`generate_turn_instructions` of a single-vertex path is `([], 0)`). -/
theorem calculate_route_degenerate_counterexample :
    (calculate_route (fun _ _ _ => none) (fun _ _ => 0) svcFix (0, 0) (0, 0)
        "driving").toOption.map (fun r => r.directions.length) = some 0 ∧
    (0 : ℕ) ≠ 1 := by
  constructor
  · with_unfolding_all decide
  · decide

/-- Claim C10: every mode other than the exact string `"walking"`
(including unrecognized strings), and `"walking"` when no walking
builder was supplied, routes the query on the driving-only branch — the
service never rejects a mode — and every successful result of that
branch reports mode `"driving"`. -/
theorem calculate_route_mode_selection (sp : Graph → Point → Point → Option (List Point))
    (bearing : Point → Point → ℚ) (svc : RoutingServiceState) (sc ec : Point)
    (mode : String) (h : mode ≠ "walking" ∨ svc.walking = none) :
    calculate_route sp bearing svc sc ec mode = drivingRoute sp bearing svc sc ec ∧
    ∀ r, drivingRoute sp bearing svc sc ec = .ok r → r.mode = "driving" := by
  constructor
  · rcases h with h | h
    · rw [calculate_route, if_neg h]
    · by_cases hm : mode = "walking"
      · rw [calculate_route, if_pos hm, h]
      · rw [calculate_route, if_neg hm]
  · exact fun r hr => drivingRoute_mode sp bearing svc sc ec r hr

/-- Claim C10, witness: the unrecognized mode `"flying"` routes on the
driving branch. -/
theorem calculate_route_mode_selection_witness :
    calculate_route (fun _ _ _ => none) (fun _ _ => 0) svcFix (0, 0) (0, 0) "flying" =
      drivingRoute (fun _ _ _ => none) (fun _ _ => 0) svcFix (0, 0) (0, 0) :=
  (calculate_route_mode_selection (fun _ _ _ => none) (fun _ _ => 0) svcFix
    (0, 0) (0, 0) "flying" (Or.inl (by decide))).1

/-- Claim C1: when a walking query's direct shortest path fails and the
single component-re-snap recovery also fails (or is inapplicable), the
query is retried exactly once against the driving-only branch: a
successful driving retry is returned as-is with mode `"driving"`, and a
driving `RouteNotFoundError` is caught and re-raised as the final
`RouteNotFoundError` — no crash and no further recursion (the driving
branch is walking-fallback-free by construction). -/
theorem calculate_route_walking_fallback (sp : Graph → Point → Point → Option (List Point))
    (bearing : Point → Point → ℚ) (svc : RoutingServiceState) (sc ec : Point)
    (wb : Builder) (s e : Point) (hwb : svc.walking = some wb)
    (hs : treeQuery wb.nodes sc = some s) (he : treeQuery wb.nodes ec = some e)
    (hne : s ≠ e) (hnp : sp wb.graph s e = none)
    (hrec : walkingRecovery sp bearing wb.graph svc.walkingLargestComponent
      sc ec s e = none) :
    (∀ r, calculate_route sp bearing svc sc ec "driving" = .ok r →
      calculate_route sp bearing svc sc ec "walking" = .ok r ∧ r.mode = "driving") ∧
    (∀ m, calculate_route sp bearing svc sc ec "driving" = .error (.notFound m) →
      calculate_route sp bearing svc sc ec "walking" = .error (.notFound noPathMsg)) := by
  have hdrv : calculate_route sp bearing svc sc ec "driving" =
      drivingRoute sp bearing svc sc ec := by
    rw [calculate_route, if_neg (by decide)]
  have htr : tryRoute sp bearing wb.graph s e "walking" = none := by
    rw [tryRoute, if_neg hne, hnp]
  have hwalk : calculate_route sp bearing svc sc ec "walking" =
      (match drivingRoute sp bearing svc sc ec with
       | .ok r => .ok r
       | .error (.notFound _) => .error (.notFound noPathMsg)
       | .error err => .error err) := by
    rw [calculate_route, if_pos rfl, hwb]
    simp only [hs, he, htr, hrec]
  constructor
  · intro r hr
    rw [hdrv] at hr
    refine ⟨?_, drivingRoute_mode sp bearing svc sc ec r hr⟩
    rw [hwalk, hr]
  · intro m hm
    rw [hdrv] at hm
    rw [hwalk, hm]

/-- The disconnected-walking service fixture: a walking builder with no
edges over the same two snap nodes as the driving builder, no cached
component. -/
def svcW : RoutingServiceState :=
  ⟨⟨emptyGraph, [(0, 0), (5, 5)]⟩, some ⟨emptyGraph, [(0, 0), (5, 5)]⟩, none⟩

/-- Claim C1, witness: with every shortest path failing, the walking
query ends in the final `RouteNotFoundError`, not a crash. -/
theorem calculate_route_walking_fallback_witness :
    calculate_route (fun _ _ _ => none) (fun _ _ => 0) svcW (0, 0) (5, 5) "walking" =
      .error (.notFound noPathMsg) :=
  (calculate_route_walking_fallback (fun _ _ _ => none) (fun _ _ => 0) svcW
      (0, 0) (5, 5) ⟨emptyGraph, [(0, 0), (5, 5)]⟩ (0, 0) (5, 5) rfl
      (by with_unfolding_all decide) (by with_unfolding_all decide)
      (by decide) rfl rfl).2 noPathMsg (by with_unfolding_all decide)

end NasrdaNavi
